import Mathlib

/-!
Verification of the quiz-session engine of the Systematic-bot repository.

The repository contains four near-duplicate Telegram quiz bots
(`Original.py`, `Lifechanger.py`, `simple_bot.py`, `Simple_bot.py`).
This development shallowly embeds the state and the pure state-transition
logic of the handlers `start_quiz`, `poll_answer`, `end_quiz`,
`handle_quiz_poll_answer` and `handle_quiz_answer`, and proves properties
of the embedded functions.

Modelling conventions:
* Python `dict`s (which preserve insertion order, overwrite in place on
  assignment to an existing key, and append on assignment to a fresh key)
  are modelled as association lists `List (K × V)` with the operations
  `dget` (first match, as Python key lookup) and `dset` (in-place
  overwrite of the first match, else append).
* Python numbers used by the scoring logic are small dyadic rationals
  (integers and multiples of 0.25/0.5), which IEEE doubles represent
  exactly, so `ℚ` (and `Nat` for counters) is a faithful model.
* `sorted(xs, key=k, reverse=True)` is Python's stable sort in descending
  key order.  `List.insertionSort r` from Mathlib is a stable sort that
  places `a` before `b` exactly when `r a b` holds (checking earlier
  elements first), so with `r a b := k a >lex k b ∨ (keys tie)` it
  computes exactly the same list as CPython's stable descending sort.
-/

namespace SystematicBot

/-- Python dict lookup `d.get(k)`: the value at the first matching key. -/
def dget {K V : Type} [DecidableEq K] (k : K) : List (K × V) → Option V
  | [] => none
  | (k', v) :: rest => if k = k' then some v else dget k rest

/-- Python dict assignment `d[k] = v`: overwrite the first matching key in
place, append at the end when the key is fresh. -/
def dset {K V : Type} [DecidableEq K] (k : K) (v : V) : List (K × V) → List (K × V)
  | [] => [(k, v)]
  | (k', v') :: rest => if k = k' then (k, v) :: rest else (k', v') :: dset k v rest

/-- A question record as stored in the question bank and snapshotted into a
quiz: `{"question": ..., "options": [...], "answer": correct_index}`. -/
structure Question where
  text : String
  options : List String
  answer : Nat
deriving DecidableEq, Repr

/-- A Telegram `poll_answer` update:
`poll_id`, the answering user (`id`, `first_name`, `username`) and the list
`option_ids` of selected option indices (empty on vote retraction). -/
structure AnswerEvent where
  pollId : String
  userId : Nat
  userName : String
  username : String
  optionIds : List Nat
deriving DecidableEq, Repr

/-- `answer.option_ids and answer.option_ids[0] == correct_answer`:
falsy on an empty option list, else compares the first selected option. -/
def eventIsCorrect (ev : AnswerEvent) (correctAnswer : Nat) : Bool :=
  match ev.optionIds with
  | [] => false
  | o :: _ => o == correctAnswer

namespace Original

/-- One participant entry of `quiz['participants']` in `Original.py`:
`{'name': ..., 'username': ..., 'correct': 0, 'answered': 0}`. -/
structure Participant where
  name : String
  username : String
  correct : Nat
  answered : Nat
deriving DecidableEq, Repr

/-- One value of `poll_info['answers'][user_id]` in `Original.py`:
`{'option_id': ..., 'is_correct': ..., 'user_name': ..., 'username': ...}`. -/
structure AnswerRec where
  optionId : Option Nat
  isCorrect : Bool
  userName : String
  username : String
deriving DecidableEq, Repr

/-- One value of `quiz['sent_polls'][poll_id]` in `Original.py`
(`message_id` is transport bookkeeping the scoring logic never reads). -/
structure PollInfo where
  questionIndex : Nat
  answers : List (Nat × AnswerRec)
deriving DecidableEq, Repr

/-- `quiz['creator']`: `{'id': ..., 'name': ..., 'username': ...}`. -/
structure Creator where
  id : Nat
  name : String
  username : String
deriving DecidableEq, Repr

/-- The quiz state `context.user_data['quiz']` of `Original.py`
(`chat_id` is delivery bookkeeping the result computation never reads). -/
structure Quiz where
  questions : List Question
  currentIndex : Nat
  participants : List (Nat × Participant)
  active : Bool
  sentPolls : List (String × PollInfo)
  creator : Option Creator
deriving DecidableEq, Repr

/-- The global `context.dispatcher.user_data` mapping restricted to the
entries that hold a `'quiz'` value, in iteration order. -/
abbrev GlobalState := List (Nat × Quiz)

/-- The poll-search condition of `poll_answer` (`Original.py` 1016‑1024):
the quiz is active and its `sent_polls` contains this poll id. -/
def quizMatches (pollId : String) (q : Quiz) : Bool :=
  q.active && (dget pollId q.sentPolls).isSome

/-- The body of `poll_answer` once the owning quiz has been found
(`Original.py` 1035‑1086): resolve the poll's question index, and when it
is in range, bump the live participant tallies and record/overwrite the
per-poll answer entry for this user. -/
def applyAnswer (ev : AnswerEvent) (q : Quiz) : Quiz :=
  match dget ev.pollId q.sentPolls with
  | none => q
  | some pi =>
    if pi.questionIndex < q.questions.length then
      let question := q.questions.getD pi.questionIndex ⟨"", [], 0⟩
      let hit := eventIsCorrect ev question.answer
      let p0 : Participant :=
        match dget ev.userId q.participants with
        | some p => p
        | none => ⟨ev.userName, ev.username, 0, 0⟩
      let p1 : Participant :=
        { p0 with answered := p0.answered + 1,
                  correct := p0.correct + (if hit then 1 else 0) }
      let rec0 : AnswerRec :=
        ⟨ev.optionIds.head?, hit, ev.userName, ev.username⟩
      let pi1 : PollInfo := { pi with answers := dset ev.userId rec0 pi.answers }
      { q with participants := dset ev.userId p1 q.participants,
               sentPolls := dset ev.pollId pi1 q.sentPolls }
    else q

/-- The per-poll answer record `poll_answer` stores for an event
(`Original.py` 1073‑1078), given the owning quiz and the poll entry. -/
def recOf (ev : AnswerEvent) (q : Quiz) (pi : PollInfo) : AnswerRec :=
  ⟨ev.optionIds.head?,
    eventIsCorrect ev (q.questions.getD pi.questionIndex ⟨"", [], 0⟩).answer,
    ev.userName, ev.username⟩

/-- The linear search of `poll_answer` over all users' data
(`Original.py` 1015‑1029): the first active quiz whose `sent_polls`
contains the poll id. -/
def findActiveQuiz (pollId : String) : GlobalState → Option (Nat × Quiz)
  | [] => none
  | (uid, q) :: rest =>
    if quizMatches pollId q then some (uid, q) else findActiveQuiz pollId rest

/-- `poll_answer` (`Original.py` 996‑1093) as a transition on the global
state: update the first active quiz owning the poll; when none is found
the handler just returns (`Original.py` 1031‑1033), leaving every quiz
untouched. -/
def poll_answer (ev : AnswerEvent) : GlobalState → GlobalState
  | [] => []
  | (uid, q) :: rest =>
    if quizMatches ev.pollId q then (uid, applyAnswer ev q) :: rest
    else (uid, q) :: poll_answer ev rest

/-- One step of the participant reconstruction of `end_quiz`
(`Original.py` 1124‑1142): initialise the user on first sight (appended at
the end, as a fresh Python dict key), then bump `answered` and, when the
stored answer was correct, `correct`. -/
def bumpRecon (uid : Nat) (a : AnswerRec) : List (Nat × Participant) → List (Nat × Participant)
  | [] => [(uid, ⟨a.userName, a.username, if a.isCorrect then 1 else 0, 1⟩)]
  | (k, p) :: rest =>
    if k = uid then
      (k, { p with answered := p.answered + 1,
                   correct := p.correct + (if a.isCorrect then 1 else 0) }) :: rest
    else (k, p) :: bumpRecon uid a rest

/-- Folding the reconstruction over one poll's `answers` dict. -/
def reconPoll (acc : List (Nat × Participant)) (pi : PollInfo) : List (Nat × Participant) :=
  pi.answers.foldl (fun acc ua => bumpRecon ua.1 ua.2 acc) acc

/-- `end_quiz`'s unconditional rebuild of the participants table from the
per-poll answer records (`Original.py` 1114‑1142). -/
def reconstruct (sentPolls : List (String × PollInfo)) : List (Nat × Participant) :=
  sentPolls.foldl (fun acc kp => reconPoll acc kp.2) []

/-- The creator fallback of `end_quiz` (`Original.py` 1144‑1158): when no
answer was reconstructed and a creator with a truthy id is recorded, credit
the creator with every question answered correctly. -/
def fallbackParticipants (q : Quiz) : List (Nat × Participant) :=
  match q.creator with
  | some c =>
    if c.id ≠ 0 then
      [(c.id, ⟨c.name, c.username, q.questions.length, q.questions.length⟩)]
    else []
  | none => []

/-- The ranking order of `end_quiz` (`Original.py` 1206‑1210):
`sorted(participants.items(), key=lambda x: (correct, -answered), reverse=True)`.
Descending lexicographic comparison of `(correct, -answered)`: `x` precedes
`y` when `x` has more correct answers, or equally many and at most as many
answered (i.e. `-answered` at least as large). -/
def rankRel (x y : Nat × Participant) : Prop :=
  y.2.correct < x.2.correct ∨ (x.2.correct = y.2.correct ∧ x.2.answered ≤ y.2.answered)

instance : DecidableRel rankRel := fun x y => by
  unfold rankRel; infer_instance

instance : IsTotal (Nat × Participant) rankRel where
  total x y := by
    rcases Nat.lt_trichotomy x.2.correct y.2.correct with h | h | h
    · exact Or.inr (Or.inl h)
    · rcases Nat.le_total x.2.answered y.2.answered with h2 | h2
      · exact Or.inl (Or.inr ⟨h, h2⟩)
      · exact Or.inr (Or.inr ⟨h.symm, h2⟩)
    · exact Or.inl (Or.inl h)

instance : IsTrans (Nat × Participant) rankRel where
  trans x y z hxy hyz := by
    rcases hxy with h1 | ⟨h1, h1'⟩ <;> rcases hyz with h2 | ⟨h2, h2'⟩
    · exact Or.inl (h2.trans h1)
    · exact Or.inl (h2 ▸ h1)
    · exact Or.inl (h1 ▸ h2)
    · exact Or.inr ⟨h1.trans h2, h1'.trans h2'⟩

/-- The sorted leaderboard of `end_quiz` (`Original.py` 1206‑1210),
computed by the stable sort `insertionSort rankRel` (see the header note on
why this equals CPython's stable descending sort). -/
def sorted_participants (ps : List (Nat × Participant)) : List (Nat × Participant) :=
  List.insertionSort rankRel ps

/-- One rendered leaderboard line of the final results message
(`Original.py` 1226‑1242): rank (1-based), name, username, the displayed
score `correct/questions_count` and the percentage `correct/total*100`
(0 when there are no questions). -/
structure ResultEntry where
  rank : Nat
  userId : Nat
  name : String
  username : String
  correct : Nat
  answered : Nat
  total : Nat
  percent : ℚ
deriving DecidableEq, Repr

/-- The outcome of `end_quiz`: either the no-participant dummy message
(`Original.py` 1167‑1203) naming a user and showing
`correct_count/questions_count (100.0%)`, or the ranked leaderboard with
the declared winner (`Original.py` 1205‑1248). -/
inductive EndResult
  | noParticipants (shownName : String) (questionsCount : Nat) (correctCount : Nat)
  | ranked (winnerName : String) (entries : List ResultEntry)
deriving DecidableEq, Repr

/-- The result computation of `end_quiz` (`Original.py` 1095‑1248) as a
function of the quiz state: rebuild participants from `sent_polls`, apply
the creator fallback when empty, then either emit the dummy message (the
dummy `correct_count` loop at 1186‑1194 adds 1 per sent poll whose
question index is in range) or sort and render the leaderboard.
`effectiveUserName` stands for the `update.effective_user` fallback name
chain at 1169‑1176. -/
def end_quiz (q : Quiz) (effectiveUserName : String) : EndResult :=
  let participants := reconstruct q.sentPolls
  let participants :=
    if participants.isEmpty then fallbackParticipants q else participants
  if participants.isEmpty then
    .noParticipants effectiveUserName q.questions.length
      ((q.sentPolls.filter (fun kp => kp.2.questionIndex < q.questions.length)).length)
  else
    let sortedP := sorted_participants participants
    let total := q.questions.length
    let entries := (sortedP.enum.map (fun pz =>
      { rank := pz.1 + 1
        userId := pz.2.1
        name := pz.2.2.name
        username := pz.2.2.username
        correct := pz.2.2.correct
        answered := pz.2.2.answered
        total := total
        percent := if 0 < total then (pz.2.2.correct : ℚ) / total * 100 else 0
        : ResultEntry }))
    .ranked ((sortedP.headD (0, ⟨"Unknown Player", "", 0, 0⟩)).2.name) entries

end Original

namespace Lifechanger

/-- One participant entry of `quiz['participants']` in `Lifechanger.py`.
The Python dict carries a `negative_points` key only after the first wrong
answer and every read uses `.get('negative_points', 0)`, so a permanent
field initialised to `0` is an equivalent model. -/
structure Participant where
  name : String
  username : String
  correct : Nat
  answered : Nat
  negativePoints : ℚ
deriving DecidableEq, Repr

/-- `Lifechanger.py` stores the same `sent_polls` answer records as
`Original.py`, and its quiz state has the same shape, so those embeddings
are reused (`Original.AnswerRec`, `Original.PollInfo`, `Original.Creator`).
The quiz state of `Lifechanger.py`: identical to `Original.Quiz` except
that live participants carry `negative_points`. -/
structure Quiz where
  questions : List Question
  currentIndex : Nat
  participants : List (Nat × Participant)
  active : Bool
  sentPolls : List (String × Original.PollInfo)
  creator : Option Original.Creator
deriving DecidableEq, Repr

abbrev GlobalState := List (Nat × Quiz)

/-- The poll-search condition of `poll_answer` (`Lifechanger.py` 1250‑1259). -/
def quizMatches (pollId : String) (q : Quiz) : Bool :=
  q.active && (dget pollId q.sentPolls).isSome

/-- The body of `poll_answer` once the owning quiz has been found
(`Lifechanger.py` 1270‑1335): bump `answered`; on a correct answer bump
`correct`, otherwise add the hard-coded negative-marking penalty `0.25` to
`negative_points`; then record/overwrite the per-poll answer entry. -/
def applyAnswer (ev : AnswerEvent) (q : Quiz) : Quiz :=
  match dget ev.pollId q.sentPolls with
  | none => q
  | some pi =>
    if pi.questionIndex < q.questions.length then
      let question := q.questions.getD pi.questionIndex ⟨"", [], 0⟩
      let hit := eventIsCorrect ev question.answer
      let p0 : Participant :=
        match dget ev.userId q.participants with
        | some p => p
        | none => ⟨ev.userName, ev.username, 0, 0, 0⟩
      let p1 : Participant :=
        { p0 with answered := p0.answered + 1,
                  correct := p0.correct + (if hit then 1 else 0),
                  negativePoints := p0.negativePoints + (if hit then 0 else 1/4) }
      let rec0 : Original.AnswerRec :=
        ⟨ev.optionIds.head?, hit, ev.userName, ev.username⟩
      let pi1 : Original.PollInfo := { pi with answers := dset ev.userId rec0 pi.answers }
      { q with participants := dset ev.userId p1 q.participants,
               sentPolls := dset ev.pollId pi1 q.sentPolls }
    else q

/-- `poll_answer` (`Lifechanger.py` 1231‑1342) on the global state. -/
def poll_answer (ev : AnswerEvent) : GlobalState → GlobalState
  | [] => []
  | (uid, q) :: rest =>
    if quizMatches ev.pollId q then (uid, applyAnswer ev q) :: rest
    else (uid, q) :: poll_answer ev rest

/-- One step of the participant reconstruction of `end_quiz`
(`Lifechanger.py` 1375‑1393).  The rebuilt dict gets only the keys `name`,
`username`, `correct`, `answered`; `negative_points` is never written, so
every later `.get('negative_points', 0)` reads `0`. -/
def bumpRecon (uid : Nat) (a : Original.AnswerRec) :
    List (Nat × Participant) → List (Nat × Participant)
  | [] => [(uid, ⟨a.userName, a.username, if a.isCorrect then 1 else 0, 1, 0⟩)]
  | (k, p) :: rest =>
    if k = uid then
      (k, { p with answered := p.answered + 1,
                   correct := p.correct + (if a.isCorrect then 1 else 0) }) :: rest
    else (k, p) :: bumpRecon uid a rest

/-- `end_quiz`'s rebuild of the participants table (`Lifechanger.py`
1365‑1393). -/
def reconstruct (sentPolls : List (String × Original.PollInfo)) : List (Nat × Participant) :=
  sentPolls.foldl (fun acc kp => kp.2.answers.foldl (fun acc ua => bumpRecon ua.1 ua.2 acc) acc) []

/-- The creator fallback (`Lifechanger.py` 1395‑1409). -/
def fallbackParticipants (q : Quiz) : List (Nat × Participant) :=
  match q.creator with
  | some c =>
    if c.id ≠ 0 then
      [(c.id, ⟨c.name, c.username, q.questions.length, q.questions.length, 0⟩)]
    else []
  | none => []

/-- The adjusted score used by the ranking (`Lifechanger.py` 1461):
`correct - negative_points`. -/
def adjScore (p : Participant) : ℚ := (p.correct : ℚ) - p.negativePoints

/-- The ranking order of `end_quiz` (`Lifechanger.py` 1458‑1465):
`sorted(items, key=lambda x: (correct - negative_points, -answered), reverse=True)`,
i.e. descending lexicographic on `(adjustedScore, -answered)`: `x` precedes
`y` when its adjusted score is larger, or equal with `answered` at most
`y`'s. -/
def rankRel (x y : Nat × Participant) : Prop :=
  adjScore y.2 < adjScore x.2 ∨ (adjScore x.2 = adjScore y.2 ∧ x.2.answered ≤ y.2.answered)

instance : DecidableRel rankRel := fun x y => by
  unfold rankRel; infer_instance

instance : IsTotal (Nat × Participant) rankRel where
  total x y := by
    rcases lt_trichotomy (adjScore x.2) (adjScore y.2) with h | h | h
    · exact Or.inr (Or.inl h)
    · rcases Nat.le_total x.2.answered y.2.answered with h2 | h2
      · exact Or.inl (Or.inr ⟨h, h2⟩)
      · exact Or.inr (Or.inr ⟨h.symm, h2⟩)
    · exact Or.inl (Or.inl h)

instance : IsTrans (Nat × Participant) rankRel where
  trans x y z hxy hyz := by
    rcases hxy with h1 | ⟨h1, h1'⟩ <;> rcases hyz with h2 | ⟨h2, h2'⟩
    · exact Or.inl (h2.trans h1)
    · exact Or.inl (h2 ▸ h1)
    · exact Or.inl (h1 ▸ h2)
    · exact Or.inr ⟨h1.trans h2, h1'.trans h2'⟩

/-- The sorted leaderboard of `end_quiz` (`Lifechanger.py` 1458‑1465). -/
def sorted_participants (ps : List (Nat × Participant)) : List (Nat × Participant) :=
  List.insertionSort rankRel ps

/-- The score part of one rendered result line (`Lifechanger.py`
1494‑1507): `correct-penalty=adjusted` when `negative_points > 0`, else the
plain `correct` count. -/
inductive DisplayScore
  | withPenalty (correct : Nat) (penalty adjusted : ℚ)
  | plain (correct : Nat)
deriving DecidableEq, Repr

/-- One rendered leaderboard line of `Lifechanger.py`'s results message:
rank, identity, the displayed score over `questions_count` and the
percentage (adjusted score over total in the penalty branch, plain correct
over total otherwise; `0` when there are no questions). -/
structure ResultEntry where
  rank : Nat
  userId : Nat
  name : String
  username : String
  display : DisplayScore
  total : Nat
  percent : ℚ
deriving DecidableEq, Repr

inductive EndResult
  | noParticipants (shownName : String) (questionsCount correctCount : Nat)
  | ranked (winnerName : String) (entries : List ResultEntry)
deriving DecidableEq, Repr

/-- The score/percentage rendering of one line (`Lifechanger.py`
1494‑1507). -/
def renderLine (rank uid : Nat) (p : Participant) (total : Nat) : ResultEntry :=
  let np := p.negativePoints
  if 0 < np then
    let adjusted := (p.correct : ℚ) - np
    { rank := rank, userId := uid, name := p.name, username := p.username
      display := .withPenalty p.correct np adjusted, total := total
      percent := if 0 < total then adjusted / total * 100 else 0 }
  else
    { rank := rank, userId := uid, name := p.name, username := p.username
      display := .plain p.correct, total := total
      percent := if 0 < total then (p.correct : ℚ) / total * 100 else 0 }

/-- The result computation of `end_quiz` (`Lifechanger.py` 1344‑1507). -/
def end_quiz (q : Quiz) (effectiveUserName : String) : EndResult :=
  let participants := reconstruct q.sentPolls
  let participants :=
    if participants.isEmpty then fallbackParticipants q else participants
  if participants.isEmpty then
    .noParticipants effectiveUserName q.questions.length
      ((q.sentPolls.filter (fun kp => kp.2.questionIndex < q.questions.length)).length)
  else
    let sortedP := sorted_participants participants
    let total := q.questions.length
    let entries := sortedP.enum.map (fun pz => renderLine (pz.1 + 1) pz.2.1 pz.2.2 total)
    .ranked ((sortedP.headD (0, ⟨"Unknown Player", "", 0, 0, 0⟩)).2.name) entries

end Lifechanger

namespace SimpleBot

/-- One participant entry of `quiz_data['participants']` in
`simple_bot.py` (`handle_quiz_poll_answer`, 1037‑1043). -/
structure Participant where
  name : String
  username : String
  correct : Nat
  answered : Nat
deriving DecidableEq, Repr

/-- The per-user quiz state `context.user_data['quiz']` of
`simple_bot.py`, restricted to the fields the answer handler reads:
`current_poll_id` (absent before the first poll is sent), `current_index`
(already incremented past the open question), `questions` and
`participants` (keyed by `str(user.id)`, modelled by the numeric id). -/
structure QuizData where
  currentPollId : Option String
  currentIndex : Nat
  questions : List Question
  participants : List (Nat × Participant)
deriving DecidableEq, Repr

/-- `handle_quiz_poll_answer` (`simple_bot.py` 1007‑1052): ignore any
event whose poll id differs from `current_poll_id`; otherwise score the
answer against the question at `current_index - 1` when that index is in
range. -/
def handle_quiz_poll_answer (ev : AnswerEvent) (qd : QuizData) : QuizData :=
  if qd.currentPollId ≠ some ev.pollId then qd
  else
    let currentIndex : Int := (qd.currentIndex : Int) - 1
    if 0 ≤ currentIndex ∧ currentIndex < qd.questions.length then
      let question := qd.questions.getD currentIndex.toNat ⟨"", [], 0⟩
      let hit := decide (ev.optionIds.head? = some question.answer)
      let p0 : Participant :=
        match dget ev.userId qd.participants with
        | some p => p
        | none => ⟨ev.userName, ev.username, 0, 0⟩
      let p1 : Participant :=
        { p0 with answered := p0.answered + 1,
                  correct := p0.correct + (if hit then 1 else 0) }
      { qd with participants := dset ev.userId p1 qd.participants }
    else qd

end SimpleBot

namespace SimpleBotTimed

/-- One participant entry of `quiz_data['participants']` in
`Simple_bot.py` (`handle_quiz_answer`, 611‑632): a display name, the
per-quiz `score` (assigned, not accumulated) and a `correct` flag for the
last answer. -/
structure Participant where
  name : String
  score : ℚ
  correct : Bool
deriving DecidableEq, Repr

/-- The single-question quiz state `context.bot_data['quiz_...']` of
`Simple_bot.py`, restricted to what `handle_quiz_answer` reads:
`poll_message_id` (matched against the incoming poll id),
`correct_option` and the `negative_marking` flag (created `True` at 466),
plus the participants dict keyed by `str(user.id)`. -/
structure QuizData where
  pollMessageId : Nat
  correctOption : Option Nat
  negativeMarking : Bool
  participants : List (Nat × Participant)
deriving DecidableEq, Repr

/-- An answer event as `handle_quiz_answer` reads it: the poll id (an
integer after `int(poll_id)`), the user, and
`option_ids[0] if option_ids else None`. -/
structure TEvent where
  pollId : Nat
  userId : Nat
  userName : String
  selectedOption : Option Nat
deriving DecidableEq, Repr

/-- The points of one answer (`Simple_bot.py` 620‑628): `1` when the
selection equals the correct option (Python `==`, so two `None`s also
match), else `-0.5` under negative marking and `0` otherwise. -/
def pointsOf (qd : QuizData) (ev : TEvent) : ℚ :=
  if ev.selectedOption = qd.correctOption then 1
  else if qd.negativeMarking then -(1/2) else 0

/-- `handle_quiz_answer` (`Simple_bot.py` 589‑635) on one quiz's state:
events whose poll id does not match the quiz's `poll_message_id` find no
`quiz_key` and return (598‑605); a matching event ensures the participant
exists, sets the `correct` flag, and ASSIGNS (`=`, not `+=`) the
participant's per-quiz `score` to this event's points (632).  The durable
per-user ledger updated by `update_user_score` (635) is outside this
state. -/
def handle_quiz_answer (ev : TEvent) (qd : QuizData) : QuizData :=
  if ev.pollId ≠ qd.pollMessageId then qd
  else
    let hit := decide (ev.selectedOption = qd.correctOption)
    let p0 : Participant :=
      match dget ev.userId qd.participants with
      | some p => p
      | none => ⟨ev.userName, 0, false⟩
    let p1 : Participant := { p0 with correct := hit, score := pointsOf qd ev }
    { qd with participants := dset ev.userId p1 qd.participants }

end SimpleBotTimed

namespace Original

/-- One token of the `/quiz` command line after the command name
(`start_quiz`, `Original.py` 804‑821): a pure digit string sets the
question count; every other token (`id=`, `start=`, malformed values)
leaves the count untouched. -/
inductive QuizArg
  | count (n : Nat)
  | other
deriving DecidableEq, Repr

/-- The argument loop of `start_quiz` (`Original.py` 799‑821): the count
starts at 5 and each digit argument replaces it by `min(int(arg), 10)`. -/
def numQuestionsOf (args : List QuizArg) : Nat :=
  args.foldl (fun acc a => match a with | .count n => min n 10 | .other => acc) 5

/-- The last explicitly requested count, defaulting to 5. -/
def requestedCount (args : List QuizArg) : Nat :=
  args.foldl (fun acc a => match a with | .count n => n | .other => acc) 5

/-- The number of questions drawn by every random-selection branch of
`start_quiz` (`Original.py` 848, 879, 883‑884):
`random.sample(questions, min(num_questions, len(questions)))` — the
sample has exactly that many elements. -/
def randomSelectionCount (args : List QuizArg) (bankSize : Nat) : Nat :=
  min (numQuestionsOf args) bankSize

end Original

/-- The number of entries of an association list carrying a given key. -/
def countKey {V : Type} (u : Nat) (l : List (Nat × V)) : Nat :=
  (l.filter (fun kv => decide (kv.1 = u))).length

namespace Original

/-- The `answered` tally a participants table reports for a user
(`0` when the user never answered). -/
def ansOf (ps : List (Nat × Participant)) (u : Nat) : Nat :=
  match dget u ps with
  | some p => p.answered
  | none => 0

/-- The `correct` tally a participants table reports for a user. -/
def corOf (ps : List (Nat × Participant)) (u : Nat) : Nat :=
  match dget u ps with
  | some p => p.correct
  | none => 0

/-- Delivering a sequence of answer events to the engine, one
`poll_answer` invocation per event, in order. -/
def process (evs : List AnswerEvent) (gs : GlobalState) : GlobalState :=
  evs.foldl (fun s e => poll_answer e s) gs

/-- Every participant of every quiz satisfies `correct ≤ answered`. -/
def liveWF (gs : GlobalState) : Prop :=
  ∀ uq ∈ gs, ∀ kp ∈ uq.2.participants, kp.2.correct ≤ kp.2.answered

end Original

namespace Lifechanger

/-- The `answered` tally a `Lifechanger.py` participants table reports. -/
def ansOf (ps : List (Nat × Participant)) (u : Nat) : Nat :=
  match dget u ps with
  | some p => p.answered
  | none => 0

/-- The `correct` tally a `Lifechanger.py` participants table reports. -/
def corOf (ps : List (Nat × Participant)) (u : Nat) : Nat :=
  match dget u ps with
  | some p => p.correct
  | none => 0

/-- The accumulated `negative_points` a participants table reports. -/
def negOf (ps : List (Nat × Participant)) (u : Nat) : ℚ :=
  match dget u ps with
  | some p => p.negativePoints
  | none => 0

/-- Delivering a sequence of answer events, one `poll_answer` each. -/
def process (evs : List AnswerEvent) (gs : GlobalState) : GlobalState :=
  evs.foldl (fun s e => poll_answer e s) gs

end Lifechanger

namespace SimpleBotTimed

/-- The per-quiz score the participants dict reports for a user. -/
def scoreOf (qd : QuizData) (u : Nat) : ℚ :=
  match dget u qd.participants with
  | some p => p.score
  | none => 0

/-- Delivering a sequence of answer events, one `handle_quiz_answer`
invocation per event, in order. -/
def process (evs : List TEvent) (qd : QuizData) : QuizData :=
  evs.foldl (fun s e => handle_quiz_answer e s) qd

end SimpleBotTimed

namespace Lifechanger

/-- Scenario B state (spec §8) for `Lifechanger.py`: a four-question
session (two options each, correct index 0) whose four polls are all
registered with no answers yet. -/
def scenarioBQuiz : Quiz :=
  ⟨[⟨"q1", ["a", "b"], 0⟩, ⟨"q2", ["a", "b"], 0⟩,
    ⟨"q3", ["a", "b"], 0⟩, ⟨"q4", ["a", "b"], 0⟩], 4, [], true,
    [("p0", ⟨0, []⟩), ("p1", ⟨1, []⟩), ("p2", ⟨2, []⟩), ("p3", ⟨3, []⟩)],
    some ⟨9, "C", "c"⟩⟩

/-- Scenario B global state: one user entry owning `scenarioBQuiz`. -/
def scenarioBGs : GlobalState := [(9, scenarioBQuiz)]

/-- Scenario B events: participant 7 answers the first three questions
correctly and the last one incorrectly. -/
def scenarioBEvents : List AnswerEvent :=
  [⟨"p0", 7, "U", "u", [0]⟩, ⟨"p1", 7, "U", "u", [0]⟩,
   ⟨"p2", 7, "U", "u", [0]⟩, ⟨"p3", 7, "U", "u", [1]⟩]

end Lifechanger

namespace Original

/-- Scenario C state (spec §8) for `Original.py`: an active one-question
session whose single poll is registered with no answers yet. -/
def dupEventQuiz : Quiz :=
  ⟨[⟨"q1", ["a", "b"], 0⟩], 1, [], true, [("p0", ⟨0, []⟩)], some ⟨9, "C", "c"⟩⟩

/-- Scenario C global state: one user entry owning `dupEventQuiz`. -/
def dupEventGs : GlobalState := [(9, dupEventQuiz)]

/-- Scenario C duplicate event: participant 7 answers poll `p0` with
option 0. -/
def dupEvent : AnswerEvent := ⟨"p0", 7, "U", "u", [0]⟩

end Original

/-! ### Association-list lemmas (Python dict semantics) -/

theorem dget_dset_self {K V : Type} [DecidableEq K] (k : K) (v : V) (l : List (K × V)) :
    dget k (dset k v l) = some v := by
  induction l with
  | nil => simp [dget, dset]
  | cons kv rest ih =>
    by_cases h : k = kv.1
    · simp [dset, h, dget]
    · simp [dset, h, dget, ih]

theorem dget_dset_ne {K V : Type} [DecidableEq K] {k k' : K} (v : V) (l : List (K × V))
    (h : k ≠ k') : dget k (dset k' v l) = dget k l := by
  induction l with
  | nil => simp [dget, dset, h]
  | cons kv rest ih =>
    by_cases h2 : k' = kv.1
    · subst h2; simp [dset, dget, h, ih]
    · by_cases h3 : k = kv.1 <;> simp [dset, dget, h2, h3, ih]

theorem dset_dset_same {K V : Type} [DecidableEq K] (k : K) (v : V) (l : List (K × V)) :
    dset k v (dset k v l) = dset k v l := by
  induction l with
  | nil => simp [dset]
  | cons kv rest ih =>
    by_cases h : k = kv.1
    · simp [dset, h]
    · simp [dset, h, ih]

theorem countKey_eq_zero {V : Type} {u : Nat} {l : List (Nat × V)}
    (h : dget u l = none) : countKey u l = 0 := by
  induction l with
  | nil => simp [countKey]
  | cons kv rest ih =>
    by_cases h2 : u = kv.1
    · simp [dget, h2] at h
    · simp [dget, h2] at h
      have : ¬(kv.1 = u) := fun e => h2 e.symm
      simp [countKey, List.filter, this] at ih ⊢
      exact ih h

theorem countKey_dset_none {V : Type} {u : Nat} (v : V) {l : List (Nat × V)}
    (h : dget u l = none) : countKey u (dset u v l) = 1 := by
  induction l with
  | nil => simp [countKey, dset, List.filter]
  | cons kv rest ih =>
    by_cases h2 : u = kv.1
    · simp [dget, h2] at h
    · simp [dget, h2] at h
      have hne : ¬(kv.1 = u) := fun e => h2 e.symm
      simp [dset, h2, countKey, List.filter, hne] at ih ⊢
      exact ih h

/-- Splitting a weighted sum over an association list along a `dset` at a
present key: the replaced value swaps its weight for the new value's. -/
theorem sum_dset {K V : Type} [DecidableEq K] (f : V → Nat) (k : K) (v : V) :
    ∀ (l : List (K × V)) (w : V), dget k l = some w →
      ((dset k v l).map (fun kv => f kv.2)).sum + f w
        = (l.map (fun kv => f kv.2)).sum + f v := by
  intro l
  induction l with
  | nil => intro w h; simp [dget] at h
  | cons kv rest ih =>
    intro w h
    by_cases h2 : k = kv.1
    · simp [dget, h2] at h
      subst h
      simp [dset, h2]
      omega
    · simp [dget, h2] at h
      have := ih w h
      simp [dset, h2]
      omega

/-! ### C9: bounded random selection in `start_quiz` -/

namespace Original

theorem numQuestionsOf_foldl (args : List QuizArg) : ∀ acc : Nat,
    args.foldl (fun acc a => match a with | .count n => min n 10 | .other => acc) (min acc 10)
      = min (args.foldl (fun acc a => match a with | .count n => n | .other => acc) acc) 10 := by
  induction args with
  | nil => intro acc; rfl
  | cons a rest ih =>
    intro acc
    cases a with
    | count n => simpa using ih n
    | other => simpa using ih acc

theorem numQuestionsOf_eq (args : List QuizArg) :
    numQuestionsOf args = min (requestedCount args) 10 := by
  have h := numQuestionsOf_foldl args 5
  simpa [numQuestionsOf, requestedCount] using h

end Original

/-- C9: every random-selection branch of `start_quiz` draws
`min(min(requestedCount, 10), bankSize)` questions, with the requested
count defaulting to 5; the draw never exceeds 10 questions and never
exceeds the bank size, so the precondition of `random.sample`
(sample size ≤ population size) always holds. -/
theorem random_quiz_selection_count (args : List Original.QuizArg) (bank : Nat) :
    Original.randomSelectionCount args bank
        = min (min (Original.requestedCount args) 10) bank ∧
      Original.randomSelectionCount args bank ≤ bank ∧
      Original.randomSelectionCount args bank ≤ 10 := by
  refine ⟨?_, ?_, ?_⟩
  · simp [Original.randomSelectionCount, Original.numQuestionsOf_eq]
  · exact min_le_right _ _
  · calc Original.randomSelectionCount args bank
        ≤ Original.numQuestionsOf args := min_le_left _ _
      _ ≤ 10 := by rw [Original.numQuestionsOf_eq]; exact min_le_right _ _

/-! ### C4: events for unresolvable polls are dropped silently -/

theorem poll_answer_not_found (ev : AnswerEvent) :
    ∀ gs : Original.GlobalState,
      Original.findActiveQuiz ev.pollId gs = none → Original.poll_answer ev gs = gs := by
  intro gs
  induction gs with
  | nil => intro _; rfl
  | cons uq rest ih =>
    intro h
    by_cases hm : Original.quizMatches ev.pollId uq.2
    · simp [Original.findActiveQuiz, hm] at h
    · obtain ⟨u, q⟩ := uq
      simp only [Original.findActiveQuiz] at h hm
      rw [if_neg (by simpa using hm)] at h
      simp [Original.poll_answer, hm, ih h]

/-- C4: an answer event whose poll id resolves to no registered poll of an
active session is silently dropped: `Original.py`'s `poll_answer` leaves
the whole global state (hence every scoreboard) unchanged and merely
returns, and `simple_bot.py`'s `handle_quiz_poll_answer` likewise returns
the quiz state untouched when the poll id is not the current poll.  Both
embedded handlers are total functions, matching the source paths that
raise nothing. -/
theorem unresolved_poll_event_is_noop (ev : AnswerEvent) (gs : Original.GlobalState)
    (ev2 : AnswerEvent) (qd : SimpleBot.QuizData) :
    (Original.findActiveQuiz ev.pollId gs = none → Original.poll_answer ev gs = gs) ∧
      (qd.currentPollId ≠ some ev2.pollId → SimpleBot.handle_quiz_poll_answer ev2 qd = qd) := by
  constructor
  · exact poll_answer_not_found ev gs
  · intro h
    simp [SimpleBot.handle_quiz_poll_answer, h]

/-- Witness for `unresolved_poll_event_is_noop` at a concrete state: one
inactive quiz holding the poll, and a `simple_bot` state whose current
poll differs from the event's. -/
theorem unresolved_poll_event_is_noop_witness :
    (Original.findActiveQuiz "p1"
        [(3, ⟨[⟨"q", ["a", "b"], 0⟩], 1, [], false, [("p1", ⟨0, []⟩)], none⟩)] = none →
      Original.poll_answer ⟨"p1", 7, "U", "u", [0]⟩
        [(3, ⟨[⟨"q", ["a", "b"], 0⟩], 1, [], false, [("p1", ⟨0, []⟩)], none⟩)]
        = [(3, ⟨[⟨"q", ["a", "b"], 0⟩], 1, [], false, [("p1", ⟨0, []⟩)], none⟩)]) ∧
    ((⟨some "p9", 1, [⟨"q", ["a", "b"], 0⟩], []⟩ : SimpleBot.QuizData).currentPollId
        ≠ some "p1" →
      SimpleBot.handle_quiz_poll_answer ⟨"p1", 7, "U", "u", [0]⟩
        ⟨some "p9", 1, [⟨"q", ["a", "b"], 0⟩], []⟩
        = ⟨some "p9", 1, [⟨"q", ["a", "b"], 0⟩], []⟩) :=
  unresolved_poll_event_is_noop ⟨"p1", 7, "U", "u", [0]⟩
    [(3, ⟨[⟨"q", ["a", "b"], 0⟩], 1, [], false, [("p1", ⟨0, []⟩)], none⟩)]
    ⟨"p1", 7, "U", "u", [0]⟩ ⟨some "p9", 1, [⟨"q", ["a", "b"], 0⟩], []⟩

/-! ### C8: final results are independent of the live participants table -/

/-- C8: the final ranked results of `end_quiz` depend only on the question
list, the per-poll answer records, and the creator/requester fields: two
end-of-session states that differ arbitrarily in the pre-existing live
`participants` mapping produce identical results, in `Original.py` and in
`Lifechanger.py` alike, because `end_quiz` always rebuilds the
participants table from `sent_polls` before ranking. -/
theorem results_independent_of_live_participants
    (q : Original.Quiz) (p : List (Nat × Original.Participant)) (eff : String)
    (ql : Lifechanger.Quiz) (pl : List (Nat × Lifechanger.Participant)) (effl : String) :
    Original.end_quiz { q with participants := p } eff = Original.end_quiz q eff ∧
      Lifechanger.end_quiz { ql with participants := pl } effl
        = Lifechanger.end_quiz ql effl :=
  ⟨rfl, rfl⟩

/-! ### C10: the timed single-question variant assigns, not accumulates -/

namespace SimpleBotTimed

theorem handle_preserves_config (ev : TEvent) (qd : QuizData) :
    (handle_quiz_answer ev qd).pollMessageId = qd.pollMessageId ∧
      (handle_quiz_answer ev qd).correctOption = qd.correctOption ∧
      (handle_quiz_answer ev qd).negativeMarking = qd.negativeMarking := by
  by_cases h : ev.pollId ≠ qd.pollMessageId <;>
    simp [handle_quiz_answer, h]

theorem process_preserves_config (evs : List TEvent) :
    ∀ qd : QuizData,
      (process evs qd).pollMessageId = qd.pollMessageId ∧
        (process evs qd).correctOption = qd.correctOption ∧
        (process evs qd).negativeMarking = qd.negativeMarking := by
  induction evs with
  | nil => intro qd; exact ⟨rfl, rfl, rfl⟩
  | cons e rest ih =>
    intro qd
    have h1 := handle_preserves_config e qd
    have h2 := ih (handle_quiz_answer e qd)
    exact ⟨h2.1.trans h1.1, h2.2.1.trans h1.2.1, h2.2.2.trans h1.2.2⟩

end SimpleBotTimed

/-- C10: in the single-question timed variant (`Simple_bot.py`), the
per-quiz score is assigned, not accumulated: after any sequence of
answer events ending in an event `e` of participant `e.userId` for the
open poll, that participant's recorded score equals exactly the points of
`e` — `1` on the correct option, `-0.5` on a wrong one under negative
marking, `0` on a wrong one otherwise — never a sum over events. -/
theorem timed_quiz_score_assigned (evs : List SimpleBotTimed.TEvent)
    (e : SimpleBotTimed.TEvent) (qd : SimpleBotTimed.QuizData)
    (h : e.pollId = qd.pollMessageId) :
    SimpleBotTimed.scoreOf (SimpleBotTimed.process (evs ++ [e]) qd) e.userId =
      (if e.selectedOption = qd.correctOption then 1
       else if qd.negativeMarking then -(1/2) else 0 : ℚ) := by
  have hsplit : SimpleBotTimed.process (evs ++ [e]) qd
      = SimpleBotTimed.handle_quiz_answer e (SimpleBotTimed.process evs qd) := by
    simp [SimpleBotTimed.process, List.foldl_append]
  have hcfg := SimpleBotTimed.process_preserves_config evs qd
  have hpoll : e.pollId = (SimpleBotTimed.process evs qd).pollMessageId := by
    rw [hcfg.1]; exact h
  rw [hsplit]
  unfold SimpleBotTimed.handle_quiz_answer
  rw [if_neg (by simp [hpoll])]
  simp only [SimpleBotTimed.scoreOf, dget_dset_self, SimpleBotTimed.pointsOf,
    hcfg.2.1, hcfg.2.2]

/-- Witness for `timed_quiz_score_assigned`: two correct answers followed
by one wrong one leave a score of exactly `-0.5` (the points of the last
event), not `1 + 1 - 0.5`. -/
theorem timed_quiz_score_assigned_witness :
    SimpleBotTimed.scoreOf
        (SimpleBotTimed.process
          ([⟨5, 7, "U", some 0⟩, ⟨5, 7, "U", some 0⟩] ++ [⟨5, 7, "U", some 1⟩])
          ⟨5, some 0, true, []⟩) 7 = -(1/2) := by
  have := timed_quiz_score_assigned [⟨5, 7, "U", some 0⟩, ⟨5, 7, "U", some 0⟩]
    ⟨5, 7, "U", some 1⟩ ⟨5, some 0, true, []⟩ rfl
  simpa using this

/-! ### C5: effect of recording one answer on an open question -/

/-- C5: recording one answer event for an open question (`Lifechanger.py`
`poll_answer`, which has negative marking enabled with penalty `0.25`)
increments the participant's answered count by 1; it increments the
correct count by 1 exactly when the chosen option index equals the
question's correct index, and otherwise adds the per-wrong penalty `0.25`
to the accumulated penalty; a chosen index outside the question's option
range (given the record invariant that the correct index is in range)
counts toward the answered count and never toward the correct count. -/
theorem record_answer_updates_tallies (ev : AnswerEvent) (q : Lifechanger.Quiz)
    (pi : Original.PollInfo) (chosen : Nat)
    (hpi : dget ev.pollId q.sentPolls = some pi)
    (hidx : pi.questionIndex < q.questions.length)
    (hopt : ev.optionIds = [chosen]) :
    Lifechanger.ansOf (Lifechanger.applyAnswer ev q).participants ev.userId
        = Lifechanger.ansOf q.participants ev.userId + 1 ∧
      Lifechanger.corOf (Lifechanger.applyAnswer ev q).participants ev.userId
        = Lifechanger.corOf q.participants ev.userId
            + (if chosen = (q.questions.getD pi.questionIndex ⟨"", [], 0⟩).answer
               then 1 else 0) ∧
      Lifechanger.negOf (Lifechanger.applyAnswer ev q).participants ev.userId
        = Lifechanger.negOf q.participants ev.userId
            + (if chosen = (q.questions.getD pi.questionIndex ⟨"", [], 0⟩).answer
               then 0 else 1/4) ∧
      ((q.questions.getD pi.questionIndex ⟨"", [], 0⟩).options.length ≤ chosen →
        (q.questions.getD pi.questionIndex ⟨"", [], 0⟩).answer
            < (q.questions.getD pi.questionIndex ⟨"", [], 0⟩).options.length →
        Lifechanger.corOf (Lifechanger.applyAnswer ev q).participants ev.userId
          = Lifechanger.corOf q.participants ev.userId) := by
  have hhit : eventIsCorrect ev (q.questions.getD pi.questionIndex ⟨"", [], 0⟩).answer
      = (chosen == (q.questions.getD pi.questionIndex ⟨"", [], 0⟩).answer) := by
    simp [eventIsCorrect, hopt]
  have happ : (Lifechanger.applyAnswer ev q).participants
      = dset ev.userId
          (let p0 : Lifechanger.Participant :=
            match dget ev.userId q.participants with
            | some p => p
            | none => ⟨ev.userName, ev.username, 0, 0, 0⟩
          { p0 with answered := p0.answered + 1,
                    correct := p0.correct
                      + (if eventIsCorrect ev
                            (q.questions.getD pi.questionIndex ⟨"", [], 0⟩).answer
                         then 1 else 0),
                    negativePoints := p0.negativePoints
                      + (if eventIsCorrect ev
                            (q.questions.getD pi.questionIndex ⟨"", [], 0⟩).answer
                         then 0 else 1/4) })
          q.participants := by
    simp [Lifechanger.applyAnswer, hpi, hidx]
  refine ⟨?_, ?_, ?_, ?_⟩
  · simp only [Lifechanger.ansOf, happ, dget_dset_self]
    cases hp : dget ev.userId q.participants <;> simp [hp]
  · simp only [Lifechanger.corOf, happ, dget_dset_self, hhit]
    cases hp : dget ev.userId q.participants <;>
      by_cases hc : chosen = (q.questions.getD pi.questionIndex ⟨"", [], 0⟩).answer <;>
        simp [hp, hc]
  · simp only [Lifechanger.negOf, happ, dget_dset_self, hhit]
    cases hp : dget ev.userId q.participants <;>
      by_cases hc : chosen = (q.questions.getD pi.questionIndex ⟨"", [], 0⟩).answer <;>
        simp [hp, hc]
  · intro hout hin
    have hc : chosen ≠ (q.questions.getD pi.questionIndex ⟨"", [], 0⟩).answer := by
      intro he; rw [he] at hout; omega
    simp only [Lifechanger.corOf, happ, dget_dset_self, hhit]
    cases hp : dget ev.userId q.participants <;> simp [hp] <;>
      simpa [List.getD] using hc

/-- Witness for `record_answer_updates_tallies`: a two-question quiz with
an open second poll; the participant picks option 2 of a two-option
question whose correct index is 0 — answered rises by 1, correct stays,
penalty rises by `0.25`, and the out-of-range clause applies. -/
theorem record_answer_updates_tallies_witness :
    Lifechanger.ansOf
        (Lifechanger.applyAnswer ⟨"p2", 7, "U", "u", [2]⟩
          ⟨[⟨"q1", ["a", "b"], 0⟩, ⟨"q2", ["c", "d"], 0⟩], 2,
            [(7, ⟨"U", "u", 1, 1, 0⟩)], true,
            [("p1", ⟨0, [(7, ⟨some 0, true, "U", "u"⟩)]⟩), ("p2", ⟨1, []⟩)],
            none⟩).participants 7 = 2 ∧
      Lifechanger.corOf
        (Lifechanger.applyAnswer ⟨"p2", 7, "U", "u", [2]⟩
          ⟨[⟨"q1", ["a", "b"], 0⟩, ⟨"q2", ["c", "d"], 0⟩], 2,
            [(7, ⟨"U", "u", 1, 1, 0⟩)], true,
            [("p1", ⟨0, [(7, ⟨some 0, true, "U", "u"⟩)]⟩), ("p2", ⟨1, []⟩)],
            none⟩).participants 7 = 1 ∧
      Lifechanger.negOf
        (Lifechanger.applyAnswer ⟨"p2", 7, "U", "u", [2]⟩
          ⟨[⟨"q1", ["a", "b"], 0⟩, ⟨"q2", ["c", "d"], 0⟩], 2,
            [(7, ⟨"U", "u", 1, 1, 0⟩)], true,
            [("p1", ⟨0, [(7, ⟨some 0, true, "U", "u"⟩)]⟩), ("p2", ⟨1, []⟩)],
            none⟩).participants 7 = 1/4 := by
  have := record_answer_updates_tallies ⟨"p2", 7, "U", "u", [2]⟩
    ⟨[⟨"q1", ["a", "b"], 0⟩, ⟨"q2", ["c", "d"], 0⟩], 2,
      [(7, ⟨"U", "u", 1, 1, 0⟩)], true,
      [("p1", ⟨0, [(7, ⟨some 0, true, "U", "u"⟩)]⟩), ("p2", ⟨1, []⟩)],
      none⟩ ⟨1, []⟩ 2 (by decide) (by decide) rfl
  refine ⟨?_, ?_, ?_⟩
  · rw [this.1]; decide
  · rw [this.2.1]; decide
  · rw [this.2.2.1]
    norm_num [Lifechanger.negOf, dget]

/-! ### C3: empty-scoreboard fallback credits the requester fully -/

/-- C3: when the reconstructed scoreboard is empty at session end (no
answer events were ever recorded) and the session's original requester is
on record, `Original.py`'s Results Compiler produces a single synthetic
ranked entry attributed to that requester with
`correct = answered = n` for an `n`-question session, displayed as
`n/n` with percentage `100`. -/
theorem empty_scoreboard_creator_fallback (q : Original.Quiz) (c : Original.Creator)
    (eff : String)
    (hrec : Original.reconstruct q.sentPolls = [])
    (hc : q.creator = some c) (hid : c.id ≠ 0)
    (hq : 0 < q.questions.length) :
    Original.end_quiz q eff = .ranked c.name
      [⟨1, c.id, c.name, c.username, q.questions.length, q.questions.length,
        q.questions.length, 100⟩] := by
  have hn : (q.questions.length : ℚ) ≠ 0 := Nat.cast_ne_zero.mpr (by omega)
  simp [Original.end_quiz, hrec, Original.fallbackParticipants, hc, hid,
    Original.sorted_participants, hq, div_self hn]

/-- Witness for `empty_scoreboard_creator_fallback`: Scenario D — a
three-question session with all three polls registered but unanswered and
requester `Z` (id 9) yields the single entry `3/3`, percentage `100`. -/
theorem empty_scoreboard_creator_fallback_witness :
    Original.end_quiz
        ⟨[⟨"q1", ["a", "b"], 0⟩, ⟨"q2", ["a", "b"], 1⟩, ⟨"q3", ["a", "b"], 0⟩], 3, [],
          false, [("p0", ⟨0, []⟩), ("p1", ⟨1, []⟩), ("p2", ⟨2, []⟩)],
          some ⟨9, "Z", "z"⟩⟩ "eff"
      = .ranked "Z" [⟨1, 9, "Z", "z", 3, 3, 3, 100⟩] :=
  empty_scoreboard_creator_fallback
    ⟨[⟨"q1", ["a", "b"], 0⟩, ⟨"q2", ["a", "b"], 1⟩, ⟨"q3", ["a", "b"], 0⟩], 3, [],
      false, [("p0", ⟨0, []⟩), ("p1", ⟨1, []⟩), ("p2", ⟨2, []⟩)],
      some ⟨9, "Z", "z"⟩⟩ ⟨9, "Z", "z"⟩ "eff" (by decide) rfl (by decide) (by decide)

/-! ### C1: leaderboard order — tie-break direction -/

/-- Counterexample to C1 as stated: participants A (1 correct of 2
answered) and B (1 correct of 1 answered) have equal adjusted score, yet
the code's sort (`key=(adjustedScore, -answered), reverse=True`) ranks B —
the participant with the LOWER answered count — first, in the
`Lifechanger.py` order and in the `Original.py` order alike. -/
theorem leaderboard_tiebreak_counterexample :
    Lifechanger.sorted_participants
        [(1, ⟨"A", "", 1, 2, 0⟩), (2, ⟨"B", "", 1, 1, 0⟩)]
      = [(2, ⟨"B", "", 1, 1, 0⟩), (1, ⟨"A", "", 1, 2, 0⟩)] ∧
      Lifechanger.adjScore ⟨"A", "", 1, 2, 0⟩ = Lifechanger.adjScore ⟨"B", "", 1, 1, 0⟩ ∧
      (1 : Nat) < 2 ∧
      Original.sorted_participants [(1, ⟨"A", "", 1, 2⟩), (2, ⟨"B", "", 1, 1⟩)]
        = [(2, ⟨"B", "", 1, 1⟩), (1, ⟨"A", "", 1, 2⟩)] := by
  refine ⟨?_, by norm_num [Lifechanger.adjScore], by decide, ?_⟩ <;>
    simp [Lifechanger.sorted_participants, Original.sorted_participants,
      Lifechanger.rankRel, Original.rankRel, Lifechanger.adjScore,
      List.orderedInsert]

/-- C1 amended: the final leaderboard is ordered descending by adjusted
score, and for every pair of participants with equal adjusted score the
one with the LOWER answered count is ranked above (ties at equal key keep
first-seen order, by stability); the sorted list is a permutation of the
input.  Stated for `Lifechanger.py`'s sort (adjusted score
`correct - negative_points`) and `Original.py`'s sort (no negative
marking, key `correct`). -/
theorem leaderboard_order_amended (ps : List (Nat × Lifechanger.Participant))
    (psO : List (Nat × Original.Participant)) :
    (Lifechanger.sorted_participants ps).Pairwise (fun x y =>
        Lifechanger.adjScore y.2 < Lifechanger.adjScore x.2 ∨
          (Lifechanger.adjScore x.2 = Lifechanger.adjScore y.2 ∧
            x.2.answered ≤ y.2.answered)) ∧
      (Lifechanger.sorted_participants ps).Perm ps ∧
      (Original.sorted_participants psO).Pairwise (fun x y =>
        y.2.correct < x.2.correct ∨
          (x.2.correct = y.2.correct ∧ x.2.answered ≤ y.2.answered)) ∧
      (Original.sorted_participants psO).Perm psO := by
  refine ⟨?_, List.perm_insertionSort _ ps, ?_, List.perm_insertionSort _ psO⟩
  · have h := List.sorted_insertionSort Lifechanger.rankRel ps
    exact h.imp (fun hab => hab)
  · have h := List.sorted_insertionSort Original.rankRel psO
    exact h.imp (fun hab => hab)

/-! ### C6: negative marking is lost at results time (Scenario B) -/

/-- C6 (code evaluation at the failing input): in `Lifechanger.py`,
after participant 7 answers 3 of 4 questions correctly and 1 incorrectly,
the live scoreboard carries the penalty `0.25`, but `end_quiz` rebuilds
participants from the per-poll answer records, which never store
`negative_points`; the reconstructed penalty reads `0`, so the penalty
display branch is unreachable and the final line shows the plain score
`3` out of `4` with percentage `75` — not `3-0.25=2.75/4` with `68.75`. -/
theorem negative_marking_lost_in_results :
    Lifechanger.negOf
        (((Lifechanger.process Lifechanger.scenarioBEvents Lifechanger.scenarioBGs).headD
            (0, Lifechanger.scenarioBQuiz)).2).participants 7 = 1/4 ∧
      Lifechanger.end_quiz
          ((Lifechanger.process Lifechanger.scenarioBEvents Lifechanger.scenarioBGs).headD
            (0, Lifechanger.scenarioBQuiz)).2 "x"
        = .ranked "U" [⟨1, 7, "U", "u", .plain 3, 4, 75⟩] := by
  constructor
  · simp +decide [Lifechanger.process, Lifechanger.scenarioBEvents, Lifechanger.scenarioBGs,
      Lifechanger.scenarioBQuiz, Lifechanger.poll_answer, Lifechanger.quizMatches,
      Lifechanger.applyAnswer, Lifechanger.negOf, dget, dset, eventIsCorrect]
  · simp +decide [Lifechanger.process, Lifechanger.scenarioBEvents, Lifechanger.scenarioBGs,
      Lifechanger.scenarioBQuiz, Lifechanger.poll_answer, Lifechanger.quizMatches,
      Lifechanger.applyAnswer, Lifechanger.end_quiz, Lifechanger.reconstruct,
      Lifechanger.bumpRecon, Lifechanger.sorted_participants, Lifechanger.renderLine,
      Lifechanger.rankRel, dget, dset, eventIsCorrect]
    norm_num

/-! ### Reconstruction accounting lemmas (`Original.py` `end_quiz`) -/

theorem dget_mem {K V : Type} [DecidableEq K] {k : K} {v : V} :
    ∀ {l : List (K × V)}, dget k l = some v → (k, v) ∈ l := by
  intro l
  induction l with
  | nil => intro h; simp [dget] at h
  | cons kv rest ih =>
    intro h
    by_cases h2 : k = kv.1
    · simp [dget, h2] at h
      subst h
      rw [h2]
      exact List.mem_cons_self _ _
    · simp [dget, h2] at h
      exact List.mem_cons_of_mem _ (ih h)

theorem mem_dset {K V : Type} [DecidableEq K] {kp : K × V} {k : K} {v : V} :
    ∀ {l : List (K × V)}, kp ∈ dset k v l → kp = (k, v) ∨ kp ∈ l := by
  intro l
  induction l with
  | nil => intro h; simpa [dset] using h
  | cons kv rest ih =>
    intro h
    by_cases h2 : k = kv.1
    · simp [dset, h2] at h
      rcases h with h | h
      · exact Or.inl (by rw [h2]; exact h)
      · exact Or.inr (List.mem_cons_of_mem _ h)
    · simp [dset, h2] at h
      rcases h with h | h
      · exact Or.inr (by simp [h])
      · rcases ih h with h3 | h3
        · exact Or.inl h3
        · exact Or.inr (List.mem_cons_of_mem _ h3)

theorem countKey_cons {V : Type} (u k : Nat) (w : V) (l : List (Nat × V)) :
    countKey u ((k, w) :: l) = (if k = u then 1 else 0) + countKey u l := by
  by_cases h : k = u
  · simp [countKey, List.filter, h]
    omega
  · simp [countKey, List.filter, h]

theorem countKey_eq_zero_of_not_mem {V : Type} {u : Nat} {l : List (Nat × V)}
    (h : u ∉ l.map Prod.fst) : countKey u l = 0 := by
  induction l with
  | nil => simp [countKey]
  | cons kv rest ih =>
    obtain ⟨k, w⟩ := kv
    rw [List.map_cons] at h
    have h1 : ¬(k = u) := fun e => h (by simp [e])
    have h2 : u ∉ rest.map Prod.fst := fun m => h (List.mem_cons_of_mem _ m)
    rw [countKey_cons, if_neg h1, ih h2]

theorem countKey_le_one_of_nodup {V : Type} (u : Nat) :
    ∀ (l : List (Nat × V)), (l.map Prod.fst).Nodup → countKey u l ≤ 1 := by
  intro l
  induction l with
  | nil => intro _; simp [countKey]
  | cons kv rest ih =>
    intro h
    obtain ⟨k, w⟩ := kv
    simp only [List.map_cons, List.nodup_cons] at h
    rw [countKey_cons]
    by_cases h2 : k = u
    · subst h2
      have hz : countKey k rest = 0 := countKey_eq_zero_of_not_mem h.1
      rw [if_pos rfl, hz]
    · rw [if_neg h2]
      have := ih h.2
      omega

theorem sum_le_length : ∀ (l : List Nat), (∀ x ∈ l, x ≤ 1) → l.sum ≤ l.length := by
  intro l
  induction l with
  | nil => intro _; simp
  | cons x rest ih =>
    intro h
    simp only [List.sum_cons, List.length_cons]
    have h1 := h x (List.mem_cons_self _ _)
    have h2 := ih (fun y hy => h y (List.mem_cons_of_mem _ hy))
    omega

namespace Original

theorem ansOf_nil (u : Nat) : ansOf [] u = 0 := rfl

theorem ansOf_cons (u k : Nat) (p : Participant) (l : List (Nat × Participant)) :
    ansOf ((k, p) :: l) u = if u = k then p.answered else ansOf l u := by
  by_cases h : u = k <;> simp [ansOf, dget, h]

theorem corOf_nil (u : Nat) : corOf [] u = 0 := rfl

theorem corOf_cons (u k : Nat) (p : Participant) (l : List (Nat × Participant)) :
    corOf ((k, p) :: l) u = if u = k then p.correct else corOf l u := by
  by_cases h : u = k <;> simp [corOf, dget, h]

theorem ansOf_bumpRecon (v : Nat) (a : AnswerRec) (u : Nat) :
    ∀ ps, ansOf (bumpRecon v a ps) u = ansOf ps u + (if u = v then 1 else 0) := by
  intro ps
  induction ps with
  | nil =>
    by_cases h : u = v
    · subst h; simp [bumpRecon, ansOf_cons, ansOf_nil]
    · simp [bumpRecon, ansOf_cons, ansOf_nil, h]
  | cons kp rest ih =>
    obtain ⟨k, p⟩ := kp
    by_cases hk : k = v
    · subst hk
      by_cases hu : u = k
      · subst hu; simp [bumpRecon, ansOf_cons]
      · simp [bumpRecon, ansOf_cons, hu]
    · by_cases hu : u = k
      · subst hu
        simp [bumpRecon, hk, ansOf_cons]
      · simp [bumpRecon, hk, ansOf_cons, hu, ih]

theorem corOf_bumpRecon (v : Nat) (a : AnswerRec) (u : Nat) :
    ∀ ps, corOf (bumpRecon v a ps) u
      = corOf ps u + (if u = v then (if a.isCorrect then 1 else 0) else 0) := by
  intro ps
  induction ps with
  | nil =>
    by_cases h : u = v
    · subst h; simp [bumpRecon, corOf_cons, corOf_nil]
    · simp [bumpRecon, corOf_cons, corOf_nil, h]
  | cons kp rest ih =>
    obtain ⟨k, p⟩ := kp
    by_cases hk : k = v
    · subst hk
      by_cases hu : u = k
      · subst hu; simp [bumpRecon, corOf_cons]
      · simp [bumpRecon, corOf_cons, hu]
    · by_cases hu : u = k
      · subst hu
        simp [bumpRecon, hk, corOf_cons]
      · simp [bumpRecon, hk, corOf_cons, hu, ih]

theorem ansOf_foldAnswers (u : Nat) :
    ∀ (l : List (Nat × AnswerRec)) (acc : List (Nat × Participant)),
      ansOf (l.foldl (fun acc ua => bumpRecon ua.1 ua.2 acc) acc) u
        = ansOf acc u + countKey u l := by
  intro l
  induction l with
  | nil => intro acc; simp [countKey]
  | cons va rest ih =>
    intro acc
    obtain ⟨v, a⟩ := va
    have h1 := ih (bumpRecon v a acc)
    have h2 := ansOf_bumpRecon v a u acc
    rw [List.foldl_cons, h1, h2, countKey_cons]
    by_cases h : u = v
    · rw [if_pos h, if_pos h.symm]; omega
    · rw [if_neg h, if_neg (fun e => h e.symm)]; omega

theorem ansOf_foldPolls (u : Nat) :
    ∀ (polls : List (String × PollInfo)) (acc : List (Nat × Participant)),
      ansOf (polls.foldl (fun acc kp => reconPoll acc kp.2) acc) u
        = ansOf acc u + (polls.map (fun kp => countKey u kp.2.answers)).sum := by
  intro polls
  induction polls with
  | nil => intro acc; simp
  | cons kp rest ih =>
    intro acc
    have h1 := ih (reconPoll acc kp.2)
    have h2 := ansOf_foldAnswers u kp.2.answers acc
    simp only [List.foldl_cons, h1, List.map_cons, List.sum_cons]
    simp only [reconPoll] at *
    omega

theorem ansOf_reconstruct (u : Nat) (polls : List (String × PollInfo)) :
    ansOf (reconstruct polls) u = (polls.map (fun kp => countKey u kp.2.answers)).sum := by
  have h := ansOf_foldPolls u polls []
  simpa [reconstruct, ansOf_nil] using h

theorem corOf_le_ansOf_foldAnswers :
    ∀ (l : List (Nat × AnswerRec)) (acc : List (Nat × Participant)),
      (∀ w, corOf acc w ≤ ansOf acc w) →
      ∀ w, corOf (l.foldl (fun acc ua => bumpRecon ua.1 ua.2 acc) acc) w
        ≤ ansOf (l.foldl (fun acc ua => bumpRecon ua.1 ua.2 acc) acc) w := by
  intro l
  induction l with
  | nil => intro acc h; exact h
  | cons va rest ih =>
    intro acc h
    refine ih (bumpRecon va.1 va.2 acc) ?_
    intro w
    have h1 := ansOf_bumpRecon va.1 va.2 w acc
    have h2 := corOf_bumpRecon va.1 va.2 w acc
    have h3 := h w
    rw [h1, h2]
    by_cases hw : w = va.1
    · rw [if_pos hw, if_pos hw]
      have : (if va.2.isCorrect then 1 else 0) ≤ 1 := by split <;> omega
      omega
    · rw [if_neg hw, if_neg hw]
      omega

theorem corOf_le_ansOf_reconstruct (polls : List (String × PollInfo)) (u : Nat) :
    corOf (reconstruct polls) u ≤ ansOf (reconstruct polls) u := by
  suffices h : ∀ (ps : List (String × PollInfo)) (acc : List (Nat × Participant)),
      (∀ w, corOf acc w ≤ ansOf acc w) →
      ∀ w, corOf (ps.foldl (fun acc kp => reconPoll acc kp.2) acc) w
        ≤ ansOf (ps.foldl (fun acc kp => reconPoll acc kp.2) acc) w by
    exact h polls [] (fun w => by simp [corOf, ansOf, dget]) u
  intro ps
  induction ps with
  | nil => intro acc h; exact h
  | cons kp rest ih =>
    intro acc h
    exact ih (reconPoll acc kp.2) (corOf_le_ansOf_foldAnswers kp.2.answers acc h)

/-! ### Live-scoreboard invariant lemmas (`Original.py` `poll_answer`) -/

theorem liveWF_applyAnswer {ev : AnswerEvent} {q : Quiz}
    (h : ∀ kp ∈ q.participants, kp.2.correct ≤ kp.2.answered) :
    ∀ kp ∈ (applyAnswer ev q).participants, kp.2.correct ≤ kp.2.answered := by
  unfold applyAnswer
  cases hpi : dget ev.pollId q.sentPolls with
  | none => exact h
  | some pi =>
    by_cases hidx : pi.questionIndex < q.questions.length
    · simp only [hidx, if_pos]
      intro kp hkp
      rcases mem_dset hkp with he | he
      · subst he
        simp only
        cases hp : dget ev.userId q.participants with
        | some p =>
          have h2 : p.correct ≤ p.answered := h (ev.userId, p) (dget_mem hp)
          simp only [hp]
          split <;> omega
        | none =>
          simp only [hp]
          split <;> omega
      · exact h kp he
    · simp only [hidx, if_neg, ite_false]
      exact h

theorem liveWF_poll_answer (ev : AnswerEvent) :
    ∀ gs : GlobalState, liveWF gs → liveWF (poll_answer ev gs) := by
  intro gs
  induction gs with
  | nil => intro h; exact h
  | cons uq rest ih =>
    intro h
    obtain ⟨uid, q⟩ := uq
    by_cases hm : quizMatches ev.pollId q
    · simp only [poll_answer, if_pos hm]
      intro x hx
      rcases List.mem_cons.mp hx with he | he
      · subst he
        exact liveWF_applyAnswer (fun kp hkp => h (uid, q) (List.mem_cons_self _ _) kp hkp)
      · exact h x (List.mem_cons_of_mem _ he)
    · simp only [poll_answer, if_neg hm]
      intro x hx
      rcases List.mem_cons.mp hx with he | he
      · subst he
        exact h (uid, q) (List.mem_cons_self _ _)
      · exact ih (fun y hy => h y (List.mem_cons_of_mem _ hy)) x he

theorem liveWF_process (evs : List AnswerEvent) :
    ∀ gs : GlobalState, liveWF gs → liveWF (process evs gs) := by
  induction evs with
  | nil => intro gs h; exact h
  | cons e rest ih =>
    intro gs h
    exact ih (poll_answer e gs) (liveWF_poll_answer e gs h)

end Original

/-! ### C7: score bounds — live map vs final reconstruction -/

/-- Counterexample to C7 as stated: in the live scoreboard of
`Original.py`, duplicate delivery of the same answer event (Scenario C's
premise) drives `answered` past `totalQuestions`: after two copies of one
event for the single question of `dupEventQuiz`, the live participant
shows `answered = 2` while the session has only 1 question. -/
theorem score_bounds_counterexample :
    Original.ansOf
        (((Original.process [Original.dupEvent, Original.dupEvent] Original.dupEventGs).headD
            (0, Original.dupEventQuiz)).2).participants 7 = 2 ∧
      (((Original.process [Original.dupEvent, Original.dupEvent] Original.dupEventGs).headD
            (0, Original.dupEventQuiz)).2).questions.length = 1 := by
  decide

/-- C7 amended: the inequalities `0 ≤ correctCount ≤ answeredCount` hold
for every participant at every point (counts are naturals, and processing
any event sequence preserves `correct ≤ answered` in every live
scoreboard); the full chain
`correctCount ≤ answeredCount ≤ totalQuestions` holds for the participants
table that `end_quiz` reconstructs and reports, for any session whose
per-poll answer dicts have distinct user keys and which registered at most
one poll per question. -/
theorem score_bounds_amended (gs : Original.GlobalState) (evs : List AnswerEvent)
    (q : Original.Quiz) (u : Nat)
    (hwf : Original.liveWF gs)
    (hnodup : ∀ kp ∈ q.sentPolls, ((kp.2.answers.map Prod.fst).Nodup))
    (hlen : q.sentPolls.length ≤ q.questions.length) :
    Original.liveWF (Original.process evs gs) ∧
      Original.corOf (Original.reconstruct q.sentPolls) u
          ≤ Original.ansOf (Original.reconstruct q.sentPolls) u ∧
      Original.ansOf (Original.reconstruct q.sentPolls) u ≤ q.questions.length := by
  refine ⟨Original.liveWF_process evs gs hwf,
    Original.corOf_le_ansOf_reconstruct q.sentPolls u, ?_⟩
  rw [Original.ansOf_reconstruct]
  calc ((q.sentPolls.map (fun kp => countKey u kp.2.answers)).sum)
      ≤ (q.sentPolls.map (fun kp => countKey u kp.2.answers)).length := by
        refine sum_le_length _ ?_
        intro x hx
        rcases List.mem_map.mp hx with ⟨kp, hkp, he⟩
        exact he ▸ countKey_le_one_of_nodup u kp.2.answers (hnodup kp hkp)
    _ = q.sentPolls.length := List.length_map _ _
    _ ≤ q.questions.length := hlen

/-- Witness for `score_bounds_amended` at a concrete state: the Scenario C
session after one (non-duplicated) answer. -/
theorem score_bounds_amended_witness :
    Original.liveWF (Original.process [Original.dupEvent] Original.dupEventGs) ∧
      Original.corOf
          (Original.reconstruct
            [("p0", ⟨0, [(7, ⟨some 0, true, "U", "u"⟩)]⟩)]) 7
          ≤ Original.ansOf
          (Original.reconstruct
            [("p0", ⟨0, [(7, ⟨some 0, true, "U", "u"⟩)]⟩)]) 7 ∧
      Original.ansOf
          (Original.reconstruct
            [("p0", ⟨0, [(7, ⟨some 0, true, "U", "u"⟩)]⟩)]) 7
        ≤ (⟨[⟨"q1", ["a", "b"], 0⟩], 1, [],
            true, [("p0", ⟨0, [(7, ⟨some 0, true, "U", "u"⟩)]⟩)],
            some ⟨9, "C", "c"⟩⟩ : Original.Quiz).questions.length :=
  score_bounds_amended Original.dupEventGs [Original.dupEvent]
    ⟨[⟨"q1", ["a", "b"], 0⟩], 1, [], true,
      [("p0", ⟨0, [(7, ⟨some 0, true, "U", "u"⟩)]⟩)], some ⟨9, "C", "c"⟩⟩ 7
    (by intro uq hq kp hkp; simp [Original.dupEventGs, Original.dupEventQuiz] at hq;
        subst hq; simp at hkp)
    (by intro kp hkp; simp at hkp; subst hkp; simp)
    (by decide)

/-! ### C2: duplicate events count once in the final results -/

namespace Original

theorem applyAnswer_questions (ev : AnswerEvent) (q : Quiz) :
    (applyAnswer ev q).questions = q.questions := by
  unfold applyAnswer
  cases hpi : dget ev.pollId q.sentPolls with
  | none => rfl
  | some pi =>
    by_cases hidx : pi.questionIndex < q.questions.length <;> simp [hidx]

theorem applyAnswer_active (ev : AnswerEvent) (q : Quiz) :
    (applyAnswer ev q).active = q.active := by
  unfold applyAnswer
  cases hpi : dget ev.pollId q.sentPolls with
  | none => rfl
  | some pi =>
    by_cases hidx : pi.questionIndex < q.questions.length <;> simp [hidx]

theorem applyAnswer_sentPolls_found {ev : AnswerEvent} {q : Quiz} {pi : PollInfo}
    (hpi : dget ev.pollId q.sentPolls = some pi)
    (hidx : pi.questionIndex < q.questions.length) :
    (applyAnswer ev q).sentPolls
      = dset ev.pollId ⟨pi.questionIndex, dset ev.userId (recOf ev q pi) pi.answers⟩
          q.sentPolls := by
  simp [applyAnswer, hpi, hidx, recOf]

theorem applyAnswer_matches {ev : AnswerEvent} {q : Quiz}
    (hm : quizMatches ev.pollId q = true) :
    quizMatches ev.pollId (applyAnswer ev q) = true := by
  unfold quizMatches at hm ⊢
  rw [Bool.and_eq_true] at hm ⊢
  refine ⟨by rw [applyAnswer_active]; exact hm.1, ?_⟩
  rcases Option.isSome_iff_exists.mp hm.2 with ⟨pi, hpi⟩
  by_cases hidx : pi.questionIndex < q.questions.length
  · rw [applyAnswer_sentPolls_found hpi hidx, dget_dset_self]
    rfl
  · unfold applyAnswer
    rw [hpi]
    simp [hidx, hm.2]

theorem applyAnswer_sentPolls_congr (ev : AnswerEvent) {x y : Quiz}
    (hs : x.sentPolls = y.sentPolls) (hq : x.questions = y.questions) :
    (applyAnswer ev x).sentPolls = (applyAnswer ev y).sentPolls := by
  simp only [applyAnswer, hs, hq]
  cases hpi : dget ev.pollId y.sentPolls with
  | none => simpa using hs
  | some pi =>
    by_cases hidx : pi.questionIndex < y.questions.length <;> simp [hidx, hs]

theorem applyAnswer_idem_sentPolls {ev : AnswerEvent} {q : Quiz} {pi : PollInfo}
    (hpi : dget ev.pollId q.sentPolls = some pi)
    (hidx : pi.questionIndex < q.questions.length) :
    (applyAnswer ev (applyAnswer ev q)).sentPolls = (applyAnswer ev q).sentPolls := by
  have h1 := applyAnswer_sentPolls_found hpi hidx
  have hpi2 : dget ev.pollId (applyAnswer ev q).sentPolls
      = some ⟨pi.questionIndex, dset ev.userId (recOf ev q pi) pi.answers⟩ := by
    rw [h1]; exact dget_dset_self _ _ _
  have hidx2 : (⟨pi.questionIndex, dset ev.userId (recOf ev q pi) pi.answers⟩ :
      PollInfo).questionIndex < (applyAnswer ev q).questions.length := by
    rw [applyAnswer_questions]; exact hidx
  have hrec : recOf ev (applyAnswer ev q)
        ⟨pi.questionIndex, dset ev.userId (recOf ev q pi) pi.answers⟩
      = recOf ev q pi := by
    simp [recOf, applyAnswer_questions]
  rw [applyAnswer_sentPolls_found hpi2 hidx2, hrec, h1]
  simp only [dset_dset_same]

theorem applyAnswer_iter_sentPolls {ev : AnswerEvent} {q : Quiz} {pi : PollInfo}
    (hpi : dget ev.pollId q.sentPolls = some pi)
    (hidx : pi.questionIndex < q.questions.length) :
    ∀ n : Nat,
      ((applyAnswer ev)^[n + 1] q).sentPolls = (applyAnswer ev q).sentPolls ∧
        ((applyAnswer ev)^[n + 1] q).questions = q.questions := by
  intro n
  induction n with
  | zero => exact ⟨rfl, applyAnswer_questions ev q⟩
  | succ m ih =>
    have hstep : (applyAnswer ev)^[m + 2] q
        = applyAnswer ev ((applyAnswer ev)^[m + 1] q) :=
      Function.iterate_succ_apply' (applyAnswer ev) (m + 1) q
    constructor
    · rw [hstep]
      have hc := applyAnswer_sentPolls_congr ev (x := (applyAnswer ev)^[m + 1] q)
        (y := applyAnswer ev q)
        (by rw [ih.1]) (by rw [ih.2, applyAnswer_questions])
      rw [hc]
      exact applyAnswer_idem_sentPolls hpi hidx
    · rw [hstep, applyAnswer_questions]
      exact ih.2

theorem findActiveQuiz_matches {p : String} {u0 : Nat} {q : Quiz} :
    ∀ {gs : GlobalState}, findActiveQuiz p gs = some (u0, q) →
      quizMatches p q = true := by
  intro gs
  induction gs with
  | nil => intro h; simp [findActiveQuiz] at h
  | cons uq rest ih =>
    intro h
    by_cases hm : quizMatches p uq.2
    · obtain ⟨u, q'⟩ := uq
      simp only [findActiveQuiz] at h hm
      rw [if_pos hm] at h
      have h2 : q' = q := congrArg Prod.snd (Option.some.inj h)
      exact h2 ▸ hm
    · obtain ⟨u, q'⟩ := uq
      simp only [findActiveQuiz] at h hm
      rw [if_neg hm] at h
      exact ih h

theorem poll_answer_tracks {ev : AnswerEvent} {u0 : Nat} {q : Quiz} :
    ∀ {gs : GlobalState}, findActiveQuiz ev.pollId gs = some (u0, q) →
      findActiveQuiz ev.pollId (poll_answer ev gs) = some (u0, applyAnswer ev q) := by
  intro gs
  induction gs with
  | nil => intro h; simp [findActiveQuiz] at h
  | cons uq rest ih =>
    intro h
    obtain ⟨u, q'⟩ := uq
    by_cases hm : quizMatches ev.pollId q'
    · simp only [findActiveQuiz] at h
      rw [if_pos hm] at h
      cases h
      simp only [poll_answer, if_pos hm, findActiveQuiz]
      rw [if_pos (applyAnswer_matches hm)]
    · simp only [findActiveQuiz] at h
      rw [if_neg hm] at h
      simp only [poll_answer, if_neg hm, findActiveQuiz]
      exact ih h

theorem process_replicate_tracks (ev : AnswerEvent) (u0 : Nat) :
    ∀ (n : Nat) (gs : GlobalState) (q : Quiz),
      findActiveQuiz ev.pollId gs = some (u0, q) →
      findActiveQuiz ev.pollId (process (List.replicate n ev) gs)
        = some (u0, (applyAnswer ev)^[n] q) := by
  intro n
  induction n with
  | zero => intro gs q h; simpa [process] using h
  | succ m ih =>
    intro gs q h
    have h1 := poll_answer_tracks h
    have h2 := ih (poll_answer ev gs) (applyAnswer ev q) h1
    have h3 : process (List.replicate (m + 1) ev) gs
        = process (List.replicate m ev) (poll_answer ev gs) := by
      simp [process, List.replicate_succ]
    rw [h3, h2, Function.iterate_succ_apply]

end Original

/-- C2: duplicate answer events with identical `(pollId, participantId)`
increase the participant's answered count as reported by the final
reconstructed results by exactly 1 for that question, regardless of how
many duplicates are delivered: the per-poll answer dict is keyed by
participant id, so each duplicate overwrites the same entry, and
`end_quiz`'s rebuild counts it once.  (The live scoreboard double-counts —
see the C7 counterexample — but the reported results come from the
rebuild.) -/
theorem duplicate_events_count_once (ev : AnswerEvent) (gs : Original.GlobalState)
    (u0 : Nat) (q : Original.Quiz) (pi : Original.PollInfo) (n : Nat)
    (h1 : Original.findActiveQuiz ev.pollId gs = some (u0, q))
    (h2 : dget ev.pollId q.sentPolls = some pi)
    (h3 : pi.questionIndex < q.questions.length)
    (h4 : dget ev.userId pi.answers = none)
    (hn : 1 ≤ n) :
    ∃ qn : Original.Quiz,
      Original.findActiveQuiz ev.pollId
          (Original.process (List.replicate n ev) gs) = some (u0, qn) ∧
        Original.ansOf (Original.reconstruct qn.sentPolls) ev.userId
          = Original.ansOf (Original.reconstruct q.sentPolls) ev.userId + 1 := by
  obtain ⟨m, rfl⟩ : ∃ m, n = m + 1 := ⟨n - 1, by omega⟩
  refine ⟨(Original.applyAnswer ev)^[m + 1] q,
    Original.process_replicate_tracks ev u0 (m + 1) gs q h1, ?_⟩
  rw [(Original.applyAnswer_iter_sentPolls h2 h3 m).1,
    Original.applyAnswer_sentPolls_found h2 h3,
    Original.ansOf_reconstruct, Original.ansOf_reconstruct]
  have hsum := sum_dset (fun x : Original.PollInfo => countKey ev.userId x.answers)
    ev.pollId ⟨pi.questionIndex, dset ev.userId (Original.recOf ev q pi) pi.answers⟩
    q.sentPolls pi h2
  have hz : countKey ev.userId pi.answers = 0 := countKey_eq_zero h4
  have h1' : countKey ev.userId
      (dset ev.userId (Original.recOf ev q pi) pi.answers) = 1 :=
    countKey_dset_none _ h4
  simp only at hsum
  omega

/-- Witness for `duplicate_events_count_once`: Scenario C — the duplicate
event delivered twice to the one-question session raises the reported
answered count from 0 to exactly 1. -/
theorem duplicate_events_count_once_witness :
    ∃ qn : Original.Quiz,
      Original.findActiveQuiz Original.dupEvent.pollId
          (Original.process (List.replicate 2 Original.dupEvent) Original.dupEventGs)
        = some (9, qn) ∧
        Original.ansOf (Original.reconstruct qn.sentPolls) Original.dupEvent.userId
          = Original.ansOf (Original.reconstruct Original.dupEventQuiz.sentPolls)
              Original.dupEvent.userId + 1 :=
  duplicate_events_count_once Original.dupEvent Original.dupEventGs 9
    Original.dupEventQuiz ⟨0, []⟩ 2 (by decide) (by decide) (by decide) (by decide)
    (by decide)

end SystematicBot
